import Mathlib

/-!
Shallow embedding of the hybrid retrieval-and-ranking core of the
product-catalogue recommendation system, class `RAGRecommender` in
`backend/app/services/rag_recommender_v2.py`.

External oracles (the Gemini language model, the embedding service, the
vector store, the cross-encoder reranker, the BM25 library scoring) are
modelled as explicit outcome values or function parameters; every piece of
control flow and arithmetic of the Python module itself is translated
directly.  Scores are rationals, Python sets of whitespace tokens are
`Finset String`, Python dictionaries keyed by URL are association lists in
insertion order.  The Python string primitives used by the module
(`split`, `strip`, `lower`, substring test) are implemented structurally
over character lists so that every definition evaluates inside the kernel.
-/

namespace RagRec

/-- Split a character list at every character satisfying `p`, keeping empty
pieces, as Python `str.split(sep)` does for a one-character separator. -/
def splitCharsBy (p : Char → Bool) : List Char → List (List Char)
  | [] => [[]]
  | c :: rest =>
    match splitCharsBy p rest, p c with
    | r, true => [] :: r
    | [], false => [[c]]
    | piece :: more, false => (c :: piece) :: more

/-- Python `s.split()`: split on whitespace, dropping empty pieces. -/
def pySplit (s : String) : List String :=
  ((splitCharsBy Char.isWhitespace s.toList).map (fun cs => String.mk cs)).filter
    (fun t => t ≠ "")

/-- Python `s.split(sep)` for a one-character separator (empty pieces kept). -/
def pySplitOnChar (sep : Char) (s : String) : List String :=
  (splitCharsBy (fun c => c = sep) s.toList).map (fun cs => String.mk cs)

/-- Python `set(s.split())`. -/
def tokenSet (s : String) : Finset String :=
  (pySplit s).toFinset

/-- Python `s.lower()` (ASCII case folding, as used by the module). -/
def pyLower (s : String) : String :=
  String.mk (s.toList.map Char.toLower)

/-- Python `s.strip()`: drop leading and trailing whitespace. -/
def pyStrip (s : String) : String :=
  String.mk (((s.toList.dropWhile Char.isWhitespace).reverse.dropWhile
    Char.isWhitespace).reverse)

/-- Membership of one character list as a contiguous segment of another. -/
def listContainsSeg (hay needle : List Char) : Bool :=
  if needle.isPrefixOf hay then true
  else
    match hay with
    | [] => false
    | _ :: rest => listContainsSeg rest needle

/-- Python substring test `needle in hay`. -/
def strContains (hay needle : String) : Bool :=
  listContainsSeg hay.toList needle.toList

/-- Python truthiness of an optional string value (`None` and `""` are falsy). -/
def strTruthy : Option String → Bool
  | none => false
  | some s => s ≠ ""

/-- Python truthiness of an optional integer value (`None` and `0` are falsy). -/
def intTruthy : Option Int → Bool
  | none => false
  | some d => d ≠ 0

/-- Python truthiness of an optional boolean value (`None` and `False` are falsy). -/
def boolTruthy : Option Bool → Bool
  | none => false
  | some b => b

/-- Outcome of one call to the language-model oracle for this request:
`none` means no Gemini model is configured (`self.gemini_model is None`),
`some (Except.error ())` means the call raised, and `some (Except.ok text)`
carries the raw response text. -/
abbrev GeminiOutcome := Option (Except Unit String)

/-- Python `line.split(sep, 1)[1]` for `sep = ":"`, defined exactly when the
line contains a colon: everything after the first colon. -/
def afterFirstColon : List Char → Option (List Char)
  | [] => none
  | c :: rest => if c = ':' then some rest else afterFirstColon rest

/-- The response-parsing loop of `multi_expand_query` (lines 200-204): for
every line of the response that contains a colon, keep the stripped text
after the first colon. -/
def parseExpandedQueries (text : String) : List String :=
  (pySplitOnChar '\n' text).filterMap (fun line =>
    (afterFirstColon line.toList).map (fun cs => pyStrip (String.mk cs)))

/-- `RAGRecommender.multi_expand_query` (lines 173-218): the original query
always comes first; on a missing model or a raised oracle call only the
original query is returned; otherwise the three parsed variants (or three
copies of the original query when fewer than three lines parse) follow,
truncated to four entries. -/
def multiExpandQuery (gemini : GeminiOutcome) (userQuery : String) : List String :=
  let queries := [userQuery]
  match gemini with
  | none => queries
  | some (Except.error _) => queries
  | some (Except.ok text) =>
    let expandedQueries := parseExpandedQueries (pyStrip text)
    let queries2 :=
      if expandedQueries.length ≥ 3 then
        queries ++ expandedQueries.take 3
      else
        queries ++ [userQuery, userQuery, userQuery]
    queries2.take 4

/-- C2: for every oracle outcome the expanded list has between 1 and 4
entries, its first element is exactly the unmodified input query, and a
raised oracle call yields the single-element list holding only the
original query. -/
theorem multiExpandQuery_contract (gemini : GeminiOutcome) (q : String) :
    1 ≤ (multiExpandQuery gemini q).length ∧
    (multiExpandQuery gemini q).length ≤ 4 ∧
    (multiExpandQuery gemini q).head? = some q ∧
    (∀ e : Unit, multiExpandQuery (some (Except.error e)) q = [q]) := by
  refine ⟨?_, ?_, ?_, fun e => rfl⟩ <;>
    · match gemini with
      | none => simp [multiExpandQuery]
      | some (Except.error _) => simp [multiExpandQuery]
      | some (Except.ok text) =>
        simp only [multiExpandQuery]
        split <;> simp [List.length_take, List.take_append_eq_append_take]

/-- C10: the expanded list has length exactly 1 or exactly 4, and whenever
the oracle responds without raising but fewer than three lines of its
output parse as `LABEL: keywords`, positions 1-3 are filled with three
duplicate copies of the original query. -/
theorem multiExpandQuery_length_dichotomy (gemini : GeminiOutcome) (q : String) :
    ((multiExpandQuery gemini q).length = 1 ∨ (multiExpandQuery gemini q).length = 4) ∧
    (∀ text : String, (parseExpandedQueries (pyStrip text)).length < 3 →
      multiExpandQuery (some (Except.ok text)) q = [q, q, q, q]) := by
  constructor
  · match gemini with
    | none => simp [multiExpandQuery]
    | some (Except.error _) => simp [multiExpandQuery]
    | some (Except.ok text) =>
      right
      simp only [multiExpandQuery]
      split
      · rename_i h
        simp [List.length_take, List.take_append_eq_append_take]
        omega
      · rfl
  · intro text h
    simp only [multiExpandQuery]
    split
    · omega
    · rfl

/-- Witness for C10 at a concrete oracle response with no parseable line. -/
theorem multiExpandQuery_length_dichotomy_witness :
    (parseExpandedQueries (pyStrip "keywords without separator")).length < 3 ∧
    multiExpandQuery (some (Except.ok "keywords without separator")) "java tester" =
      ["java tester", "java tester", "java tester", "java tester"] := by
  refine ⟨by decide, ?_⟩
  exact (multiExpandQuery_length_dichotomy
    (some (Except.ok "keywords without separator")) "java tester").2
    "keywords without separator" (by decide)

/-- The fixed high-value keyword list of the exact-name pass (lines 244-248). -/
def TARGET_KEYWORDS : Finset String :=
  {"verbal", "numerical", "logical", "personality", "cognitive", "aptitude",
   "java", "python", "sql", "tableau", "react", "angular", "node", "marketing",
   "sales", "finance", "account", "manager", "english", "communication"}

/-- The per-item match test of the exact-name pass (lines 265-292), applied to
`query_lower = query.lower()` and `name = meta.get('name', '').lower()`. -/
def exactNameIsMatch (queryLower name : String) : Bool :=
  let queryParts := tokenSet queryLower
  if strContains queryLower name && decide (3 < name.length) then true
  else
    let nameParts := tokenSet name
    if nameParts = ∅ then false
    else
      let overlap := (queryParts ∩ nameParts).card
      let commonWords := queryParts ∩ nameParts
      if (commonWords ∩ TARGET_KEYWORDS).Nonempty then true
      else if nameParts.card ≤ 2 ∧ 1 ≤ overlap then true
      else if nameParts.card ≤ 2 * overlap then true
      else decide (2 ≤ overlap)

/-- C3 condition (a), following the spec: the full item name, longer than
three characters, appears as a literal substring of the lowercased query. -/
def nameCondA (queryLower name : String) : Prop :=
  strContains queryLower name = true ∧ 3 < name.length

/-- C3 condition (b), following the spec: the query-token/name-token overlap
contains at least one token of the fixed high-value keyword list. -/
def nameCondB (queryLower name : String) : Prop :=
  ((tokenSet queryLower ∩ tokenSet name) ∩ TARGET_KEYWORDS).Nonempty

/-- C3 condition (c), following the spec: the name has at most two tokens
and at least one token overlaps with the query tokens. -/
def nameCondC (queryLower name : String) : Prop :=
  (tokenSet name).card ≤ 2 ∧ 1 ≤ (tokenSet queryLower ∩ tokenSet name).card

/-- C3 condition (d), following the spec: the name has more than two tokens
and the overlap covers at least half of the name tokens or contains at
least two tokens. -/
def nameCondD (queryLower name : String) : Prop :=
  2 < (tokenSet name).card ∧
    ((tokenSet name).card ≤ 2 * (tokenSet queryLower ∩ tokenSet name).card ∨
      2 ≤ (tokenSet queryLower ∩ tokenSet name).card)

/-- C3: the exact-name pass marks an item as a match exactly when one of the
four spec conditions (a)-(d) holds. -/
theorem exactNameIsMatch_iff (queryLower name : String) :
    exactNameIsMatch queryLower name = true ↔
      nameCondA queryLower name ∨ nameCondB queryLower name ∨
      nameCondC queryLower name ∨ nameCondD queryLower name := by
  simp only [exactNameIsMatch]
  split_ifs with h1 h2 h3 h4 h5
  · simp only [Bool.and_eq_true, decide_eq_true_eq] at h1
    exact iff_of_true rfl (Or.inl ⟨h1.1, h1.2⟩)
  · simp only [Bool.and_eq_true, decide_eq_true_eq, not_and] at h1
    constructor
    · intro h; exact nomatch h
    · rintro (hA | hB | hC | hD)
      · exact absurd hA.2 (h1 hA.1)
      · exact absurd hB (by simp [nameCondB, h2])
      · simp only [nameCondC, h2, Finset.inter_empty, Finset.card_empty] at hC
        omega
      · simp only [nameCondD, h2, Finset.card_empty] at hD
        omega
  · exact iff_of_true rfl (Or.inr (Or.inl h3))
  · exact iff_of_true rfl (Or.inr (Or.inr (Or.inl h4)))
  · have hne : (tokenSet name).card ≠ 0 := by
      simpa [Finset.card_eq_zero] using h2
    have h4x : 2 < (tokenSet name).card := by
      by_contra hcon
      push_neg at hcon
      rcases Nat.lt_or_ge (tokenSet queryLower ∩ tokenSet name).card 1 with hk0 | hk1
      · omega
      · exact h4 ⟨hcon, hk1⟩
    exact iff_of_true rfl (Or.inr (Or.inr (Or.inr ⟨h4x, Or.inl h5⟩)))
  · have hne : (tokenSet name).card ≠ 0 := by
      simpa [Finset.card_eq_zero] using h2
    simp only [Bool.and_eq_true, decide_eq_true_eq, not_and] at h1
    simp only [decide_eq_true_eq]
    constructor
    · intro h
      have h4x : 2 < (tokenSet name).card := by
        by_contra hcon
        push_neg at hcon
        exact h4 ⟨hcon, by omega⟩
      exact Or.inr (Or.inr (Or.inr ⟨h4x, Or.inr h⟩))
    · rintro (hA | hB | hC | hD)
      · exact absurd hA.2 (h1 hA.1)
      · exact absurd hB h3
      · exact absurd hC h4
      · rcases hD.2 with hd1 | hd2
        · exact absurd hd1 h5
        · exact hd2

/-- The metadata dictionary stored for one catalog item, restricted to the
keys `recommend` reads; every field is optional because `meta.get` may find
the key missing. -/
structure ItemMeta where
  url : Option String
  name : Option String
  description : Option String
  duration : Option Int
  testType : Option String
  remoteSupport : Option String
  adaptiveSupport : Option String
  jobLevel : Option String
deriving DecidableEq, Inhabited

/-- The structured constraints extracted by `extract_metadata_constraints`
(the four JSON fields of its prompt). -/
structure Constraints where
  maxDurationMinutes : Option Int
  requiresRemote : Option Bool
  requiresAdaptive : Option Bool
  jobLevel : Option String
deriving DecidableEq, Inhabited

/-- The empty constraints dictionary, returned on any extraction failure. -/
def Constraints.empty : Constraints := ⟨none, none, none, none⟩

/-- The job-level penalty of the reranking step (lines 465-476). -/
def codeJobLevelPenalty (c : Constraints) (meta : ItemMeta) : ℚ :=
  if strTruthy c.jobLevel then
    if c.jobLevel.getD "" = "Entry_Level" ∧ meta.jobLevel.getD "General" = "Manager_Senior" then
      -3
    else if c.jobLevel.getD "" = "Manager_Senior" ∧ meta.jobLevel.getD "General" = "Entry_Level" then
      -3
    else 0
  else 0

/-- The boosted score of one candidate in the reranking step (lines 444-482):
keyword-overlap boost plus name-overlap boost plus job-level penalty, added
to the raw oracle score. -/
def boostedScore (queryKeywords : Finset String) (c : Constraints)
    (meta : ItemMeta) (doc : String) (score : ℚ) : ℚ :=
  let docKeywords := tokenSet (pyLower doc)
  let overlap := (queryKeywords ∩ docKeywords).card
  let overlapRatio : ℚ :=
    if queryKeywords = ∅ then 0 else (overlap : ℚ) / (queryKeywords.card : ℚ)
  let keywordBoost := overlapRatio * 3
  let nameKeywords := tokenSet (pyLower (meta.name.getD ""))
  let nameOverlap := (queryKeywords ∩ nameKeywords).card
  let nameOverlapRatio : ℚ :=
    if queryKeywords = ∅ then 0 else (nameOverlap : ℚ) / (queryKeywords.card : ℚ)
  let nameBoost := nameOverlapRatio * 5
  score + (keywordBoost + nameBoost + codeJobLevelPenalty c meta)

/-- One entry of `ranked_candidates` (lines 485-492). -/
structure RankedCandidate where
  meta : ItemMeta
  score : ℚ
  originalScore : ℚ
  boost : ℚ
deriving DecidableEq, Inhabited

/-- The body of the scoring loop, building one `ranked_candidates` entry
from a (meta, doc) pair and its oracle score. -/
def scoreCandidate (queryKeywords : Finset String) (c : Constraints)
    (p : (ItemMeta × String) × ℚ) : RankedCandidate :=
  let b := boostedScore queryKeywords c p.1.1 p.1.2 p.2
  { meta := p.1.1, score := b, originalScore := p.2, boost := b - p.2 }

/-- The descending comparison of `ranked_candidates.sort(key=..., reverse=True)`. -/
def scoreGE (a b : RankedCandidate) : Prop := b.score ≤ a.score

instance : DecidableRel scoreGE :=
  fun a b => inferInstanceAs (Decidable (b.score ≤ a.score))

instance : IsTotal RankedCandidate scoreGE :=
  ⟨fun a b => le_total b.score a.score⟩

instance : IsTrans RankedCandidate scoreGE :=
  ⟨fun _ _ _ hab hbc => le_trans hbc hab⟩

/-- Lines 440-495: boost every candidate and stable-sort the result by
final score descending.  Python list sort is stable, so any stable sort by
the same key computes the same list; insertion sort is used here. -/
def rerankCandidates (query : String) (c : Constraints)
    (cands : List (ItemMeta × String)) (scores : List ℚ) : List RankedCandidate :=
  let queryKeywords := tokenSet (pyLower query)
  ((cands.zip scores).map (scoreCandidate queryKeywords c)).insertionSort scoreGE

/-- C4 claim-side seniority penalty, following the words of the spec. -/
def specSeniorityPenalty (reqLevel candLevel : Option String) : ℚ :=
  if (reqLevel = some "Entry_Level" ∧ candLevel = some "Manager_Senior") ∨
     (reqLevel = some "Manager_Senior" ∧ candLevel = some "Entry_Level") then -3 else 0

/-- C4 claim-side final score, following the words of the spec: oracle score
plus `overlap/|query_tokens| × 3` plus `name_overlap/|query_tokens| × 5`
plus the seniority penalty. -/
def specFinalScore (query : String) (c : Constraints) (meta : ItemMeta)
    (doc : String) (oracleScore : ℚ) : ℚ :=
  let qt := tokenSet (pyLower query)
  let dt := tokenSet (pyLower doc)
  let nt := tokenSet (pyLower (meta.name.getD ""))
  oracleScore + ((qt ∩ dt).card : ℚ) / (qt.card : ℚ) * 3 +
    ((qt ∩ nt).card : ℚ) / (qt.card : ℚ) * 5 +
    specSeniorityPenalty c.jobLevel meta.jobLevel

theorem codeJobLevelPenalty_eq_spec (c : Constraints) (meta : ItemMeta) :
    codeJobLevelPenalty c meta = specSeniorityPenalty c.jobLevel meta.jobLevel := by
  unfold codeJobLevelPenalty specSeniorityPenalty
  cases hc : c.jobLevel with
  | none => simp [strTruthy]
  | some r =>
    cases hm : meta.jobLevel with
    | none => simp only [strTruthy, Option.getD_some, Option.getD_none]
              split_ifs <;> simp_all
    | some t =>
      simp only [strTruthy, Option.getD_some]
      split_ifs <;> simp_all
      tauto

theorem overlapRatio_if_eq (qk other : Finset String) :
    (if qk = ∅ then (0 : ℚ) else ((qk ∩ other).card : ℚ) / (qk.card : ℚ)) =
      ((qk ∩ other).card : ℚ) / (qk.card : ℚ) := by
  split_ifs with h
  · simp [h]
  · rfl

theorem boostedScore_eq_spec (query : String) (c : Constraints) (meta : ItemMeta)
    (doc : String) (s : ℚ) :
    boostedScore (tokenSet (pyLower query)) c meta doc s =
      specFinalScore query c meta doc s := by
  simp only [boostedScore, specFinalScore]
  rw [codeJobLevelPenalty_eq_spec, overlapRatio_if_eq, overlapRatio_if_eq]
  ring

/-- Stability of the stable sort: candidates with any fixed final score keep
their pre-sort order. -/
theorem insertionSort_scoreGE_filter_score (l : List RankedCandidate) (s : ℚ) :
    (l.insertionSort scoreGE).filter (fun r => decide (r.score = s)) =
      l.filter (fun r => decide (r.score = s)) := by
  have hpw : (l.filter (fun r => decide (r.score = s))).Pairwise scoreGE := by
    apply List.pairwise_of_forall_mem_list
    intro a ha b hb
    rw [List.mem_filter] at ha hb
    have hsa : a.score = s := of_decide_eq_true ha.2
    have hsb : b.score = s := of_decide_eq_true hb.2
    rw [scoreGE, hsa, hsb]
  have hsub : List.Sublist (l.filter (fun r => decide (r.score = s)))
      (l.insertionSort scoreGE) :=
    List.sublist_insertionSort hpw (List.filter_sublist l)
  have hsub2 : List.Sublist (l.filter (fun r => decide (r.score = s)))
      ((l.insertionSort scoreGE).filter (fun r => decide (r.score = s))) := by
    have := hsub.filter (fun r => decide (r.score = s))
    rwa [List.filter_eq_self.mpr (fun a ha => (List.mem_filter.mp ha).2)] at this
  have hlen : ((l.insertionSort scoreGE).filter (fun r => decide (r.score = s))).length =
      (l.filter (fun r => decide (r.score = s))).length :=
    ((List.perm_insertionSort scoreGE l).filter _).length_eq
  exact (hsub2.eq_of_length hlen.symm).symm

/-- C4: every reranked candidate's final score is the spec formula (oracle
score plus keyword boost plus name boost plus seniority penalty), and the
output is the stable descending sort of the scored candidates: sorted by
final score descending, a permutation of the scored list, and candidates of
any fixed final score keep the original retrieval order. -/
theorem rerank_formula_and_stable_sort (query : String) (c : Constraints)
    (cands : List (ItemMeta × String)) (scores : List ℚ) :
    (∀ p ∈ cands.zip scores,
        (scoreCandidate (tokenSet (pyLower query)) c p).score =
          specFinalScore query c p.1.1 p.1.2 p.2) ∧
    (rerankCandidates query c cands scores).Pairwise (fun a b => b.score ≤ a.score) ∧
    (rerankCandidates query c cands scores).Perm
      ((cands.zip scores).map (scoreCandidate (tokenSet (pyLower query)) c)) ∧
    (∀ s : ℚ, (rerankCandidates query c cands scores).filter (fun r => decide (r.score = s)) =
      ((cands.zip scores).map (scoreCandidate (tokenSet (pyLower query)) c)).filter
        (fun r => decide (r.score = s))) := by
  refine ⟨?_, ?_, ?_, ?_⟩
  · intro p _
    exact boostedScore_eq_spec query c p.1.1 p.1.2 p.2
  · exact List.sorted_insertionSort scoreGE
      ((cands.zip scores).map (scoreCandidate (tokenSet (pyLower query)) c))
  · exact List.perm_insertionSort scoreGE _
  · intro s
    exact insertionSort_scoreGE_filter_score _ s

/-- Lines 498-501: keep every ranked candidate whose final score is at
least the configured threshold. -/
def thresholdFilter (thr : ℚ) (ranked : List RankedCandidate) : List RankedCandidate :=
  ranked.filter (fun x => decide (thr ≤ x.score))

/-- Lines 498-504: threshold filter followed by truncation to `n_results`. -/
def selectTop (thr : ℚ) (n : Nat) (ranked : List RankedCandidate) :
    List RankedCandidate :=
  (thresholdFilter thr ranked).take n

theorem length_filter_mono {α : Type} (p q : α → Bool) (l : List α)
    (h : ∀ a, p a = true → q a = true) :
    (l.filter p).length ≤ (l.filter q).length := by
  induction l with
  | nil => simp
  | cons x xs ih =>
    simp only [List.filter_cons]
    by_cases hp : p x = true
    · rw [if_pos hp, if_pos (h x hp)]
      simpa using ih
    · rw [if_neg hp]
      split
      · exact le_trans ih (by simp)
      · exact ih

/-- C5: on a fixed ranked pool, raising the score threshold shrinks the
set of surviving candidates and never lengthens the truncated result. -/
theorem threshold_monotone (ranked : List RankedCandidate) (n : Nat) (t1 t2 : ℚ)
    (h : t1 ≤ t2) :
    (∀ x ∈ thresholdFilter t2 ranked, x ∈ thresholdFilter t1 ranked) ∧
    (selectTop t2 n ranked).length ≤ (selectTop t1 n ranked).length := by
  constructor
  · intro x hx
    rw [thresholdFilter, List.mem_filter] at hx ⊢
    exact ⟨hx.1, decide_eq_true (le_trans h (of_decide_eq_true hx.2))⟩
  · simp only [selectTop, thresholdFilter, List.length_take]
    have := length_filter_mono (fun x => decide (t2 ≤ x.score))
      (fun x => decide (t1 ≤ x.score)) ranked
      (fun a ha => decide_eq_true (le_trans h (of_decide_eq_true ha)))
    omega

/-- A placeholder ranked candidate carrying only a final score, used by
concrete instantiations. -/
def demoCandidate (s : ℚ) : RankedCandidate :=
  { meta := default, score := s, originalScore := s, boost := 0 }

/-- Witness for C5 on a concrete pool and a concrete pair of thresholds. -/
theorem threshold_monotone_witness :
    (0 : ℚ) ≤ 1 ∧
    ((∀ x ∈ thresholdFilter 1 [demoCandidate 2, demoCandidate 0],
        x ∈ thresholdFilter 0 [demoCandidate 2, demoCandidate 0]) ∧
      (selectTop 1 10 [demoCandidate 2, demoCandidate 0]).length ≤
        (selectTop 0 10 [demoCandidate 2, demoCandidate 0]).length) :=
  ⟨by norm_num, threshold_monotone [demoCandidate 2, demoCandidate 0] 10 0 1 (by norm_num)⟩

/-- One sighting of a catalog item by some retrieval channel: the URL key
together with the metadata and document text that channel would store. -/
structure Sighting where
  url : Option String
  meta : ItemMeta
  doc : String
deriving DecidableEq, Inhabited

/-- One guarded write into the shared `all_candidates` / `all_docs`
dictionaries: `if url and url not in all_candidates:` followed by the two
assignments.  Every retrieval channel inserts through this guard. -/
def insertCandidate (pool : List (String × ItemMeta × String)) (s : Sighting) :
    List (String × ItemMeta × String) :=
  match s.url with
  | none => pool
  | some u =>
    if u = "" then pool
    else if pool.any (fun e => e.1 == u) then pool
    else pool ++ [(u, s.meta, s.doc)]

/-- The candidate pool built by replaying every guarded insertion of one
request in program order. -/
def aggregate (sightings : List Sighting) : List (String × ItemMeta × String) :=
  sightings.foldl insertCandidate []

theorem insertCandidate_keys_nodup (pool : List (String × ItemMeta × String))
    (s : Sighting) (h : (pool.map Prod.fst).Nodup) :
    ((insertCandidate pool s).map Prod.fst).Nodup := by
  rcases hurl : s.url with _ | u
  · simpa [insertCandidate, hurl] using h
  · simp only [insertCandidate, hurl]
    split_ifs with h1 h2
    · exact h
    · exact h
    · rw [List.map_append]
      rw [List.nodup_append]
      refine ⟨h, List.nodup_singleton u, ?_⟩
      intro a ha hb
      simp only [List.map_cons, List.map_nil, List.mem_singleton] at hb
      subst hb
      rw [List.mem_map] at ha
      obtain ⟨e, he, hea⟩ := ha
      exact h2 (List.any_eq_true.mpr ⟨e, he, by simp [hea]⟩)

theorem foldl_insert_keys_nodup (sightings : List Sighting) :
    ∀ pool, (pool.map Prod.fst).Nodup →
      (((sightings.foldl insertCandidate pool)).map Prod.fst).Nodup := by
  induction sightings with
  | nil => exact fun pool h => h
  | cons s rest ih =>
    intro pool h
    exact ih (insertCandidate pool s) (insertCandidate_keys_nodup pool s h)

theorem find?_insertCandidate_ne (pool : List (String × ItemMeta × String))
    (s : Sighting) (u : String) (hne : s.url ≠ some u) :
    (insertCandidate pool s).find? (fun e => e.1 == u) =
      pool.find? (fun e => e.1 == u) := by
  rcases hurl : s.url with _ | v
  · simp [insertCandidate, hurl]
  · simp only [insertCandidate, hurl]
    split_ifs with h1 h2
    · rfl
    · rfl
    · rw [List.find?_append]
      have hvne : v ≠ u := fun h => hne (by rw [hurl, h])
      have : ([(v, s.meta, s.doc)].find? (fun e => e.1 == u)) = none := by
        simp [hvne]
      rw [this, Option.or_none]

theorem foldl_insert_find? (sightings : List Sighting) :
    ∀ (pool : List (String × ItemMeta × String)) (u : String), u ≠ "" →
      (sightings.foldl insertCandidate pool).find? (fun e => e.1 == u) =
        Option.or (pool.find? (fun e => e.1 == u))
          ((sightings.find? (fun s => s.url == some u)).map
            (fun s => (u, s.meta, s.doc))) := by
  induction sightings with
  | nil => intro pool u _; simp
  | cons s rest ih =>
    intro pool u hu
    rw [List.foldl_cons, ih (insertCandidate pool s) u hu]
    by_cases hs : s.url = some u
    · have hq : (s.url == some u) = true := by simp [hs]
      rw [List.find?_cons_of_pos (p := fun s => s.url == some u) rest hq]
      simp only [insertCandidate, hs]
      rw [if_neg hu]
      by_cases hmem : pool.any (fun e => e.1 == u) = true
      · rw [if_pos hmem]
        have hfound : (pool.find? (fun e => e.1 == u)).isSome := by
          rw [List.find?_isSome]
          obtain ⟨e, he, hp⟩ := List.any_eq_true.mp hmem
          exact ⟨e, he, hp⟩
        obtain ⟨w, hw⟩ := Option.isSome_iff_exists.mp hfound
        rw [hw]
        rfl
      · rw [if_neg hmem]
        have hnone : pool.find? (fun e => e.1 == u) = none := by
          rw [List.find?_eq_none]
          intro x hx hpx
          exact hmem (List.any_eq_true.mpr ⟨x, hx, hpx⟩)
        rw [List.find?_append, hnone]
        simp
    · have hq : (s.url == some u) = false := by
        rw [beq_eq_false_iff_ne]
        exact hs
      rw [List.find?_cons_of_neg (p := fun s => s.url == some u) rest (by simp [hq])]
      rw [find?_insertCandidate_ne pool s u hs]

/-- C6: the candidate pool never holds two entries with the same URL, and
the entry stored under a URL comes from the first sighting of that URL:
later sightings of the same URL change neither the stored metadata nor the
stored document text. -/
theorem aggregate_dedup_first_writer (sightings : List Sighting) (u : String)
    (hu : u ≠ "") :
    ((aggregate sightings).map Prod.fst).Nodup ∧
    (aggregate sightings).find? (fun e => e.1 == u) =
      (sightings.find? (fun s => s.url == some u)).map
        (fun s => (u, s.meta, s.doc)) := by
  constructor
  · exact foldl_insert_keys_nodup sightings [] (by simp)
  · rw [aggregate, foldl_insert_find? sightings [] u hu]
    simp

/-- Witness for C6: two channels surface the same URL with different
documents; the pool keeps a single entry holding the first document. -/
theorem aggregate_dedup_first_writer_witness :
    "https://cat/item1" ≠ "" ∧
    (((aggregate
        [⟨some "https://cat/item1", default, "first doc"⟩,
         ⟨some "https://cat/item1", default, "second doc"⟩]).map Prod.fst).Nodup ∧
      (aggregate
        [⟨some "https://cat/item1", default, "first doc"⟩,
         ⟨some "https://cat/item1", default, "second doc"⟩]).find?
          (fun e => e.1 == "https://cat/item1") =
        some ("https://cat/item1", default, "first doc")) := by
  constructor
  · decide
  · have := aggregate_dedup_first_writer
      [⟨some "https://cat/item1", default, "first doc"⟩,
       ⟨some "https://cat/item1", default, "second doc"⟩]
      "https://cat/item1" (by decide)
    exact ⟨this.1, by rw [this.2]; rfl⟩

/-- The filter dictionary passed to the vector-store search (lines 311-320);
each key is present only when the corresponding constraint is truthy. -/
structure Filters where
  jobLevel : Option String
  maxDuration : Option Int
  remoteSupport : Option String
  adaptiveSupport : Option String
deriving DecidableEq, Inhabited

/-- Python truthiness of the filter dictionary: empty means falsy. -/
def Filters.isEmptyDict (f : Filters) : Bool :=
  f.jobLevel.isNone && f.maxDuration.isNone && f.remoteSupport.isNone &&
    f.adaptiveSupport.isNone

/-- Lines 311-320: build the filter dictionary from the extracted
constraints. -/
def buildFilters (c : Constraints) : Filters :=
  { jobLevel := if strTruthy c.jobLevel then c.jobLevel else none
    maxDuration := if intTruthy c.maxDurationMinutes then c.maxDurationMinutes else none
    remoteSupport := if boolTruthy c.requiresRemote then some "Yes" else none
    adaptiveSupport := if boolTruthy c.requiresAdaptive then some "Yes" else none }

/-- The vector-store search oracle: a query embedding, `n_results` and an
optional filter dictionary give parallel metadata and document lists. -/
abbrev SearchFn := List ℚ → Nat → Option Filters → List ItemMeta × List String

/-- Lines 322-336: one semantic search, retried exactly once with the
job-level filter removed when the first search returned no metadata while
a job-level filter was present. -/
def semanticSearchWithFallback (search : SearchFn) (emb : List ℚ) (k : Nat)
    (filters : Filters) : List ItemMeta × List String :=
  let res := search emb k (if filters.isEmptyDict then none else some filters)
  if res.1.length = 0 ∧ filters.isEmptyDict = false ∧ strTruthy filters.jobLevel = true then
    let filtersNoLevel : Filters := { filters with jobLevel := none }
    search emb k (if filtersNoLevel.isEmptyDict then none else some filtersNoLevel)
  else
    res

/-- C7: a semantic search carrying a job-level filter that returns zero
metadata is reissued exactly once, with the same embedding and top-K, with
only the job-level filter removed and every other filter kept; when no
job-level filter is present the first search result is returned unchanged,
whatever it is. -/
theorem seniority_fallback (search : SearchFn) (emb : List ℚ) (k : Nat)
    (filters : Filters) :
    (strTruthy filters.jobLevel = true →
      (search emb k (some filters)).1 = [] →
      semanticSearchWithFallback search emb k filters =
        search emb k
          (if Filters.isEmptyDict
              { filters with jobLevel := none } then none
            else some { filters with jobLevel := none })) ∧
    ({ filters with jobLevel := none } : Filters).maxDuration = filters.maxDuration ∧
    ({ filters with jobLevel := none } : Filters).remoteSupport = filters.remoteSupport ∧
    ({ filters with jobLevel := none } : Filters).adaptiveSupport = filters.adaptiveSupport ∧
    (strTruthy filters.jobLevel = false →
      semanticSearchWithFallback search emb k filters =
        search emb k (if filters.isEmptyDict then none else some filters)) := by
  refine ⟨?_, rfl, rfl, rfl, ?_⟩
  · intro hjob hempty
    have hne : filters.isEmptyDict = false := by
      rcases hlv : filters.jobLevel with _ | v
      · rw [hlv] at hjob
        exact absurd hjob (by simp [strTruthy])
      · simp [Filters.isEmptyDict, hlv]
    simp only [semanticSearchWithFallback, hne, Bool.false_eq_true, if_false]
    rw [hempty]
    simp [hjob]
  · intro hjob
    simp only [semanticSearchWithFallback]
    rw [if_neg (by simp [hjob])]

/-- A concrete vector-store oracle for instantiations: it returns nothing
whenever a job-level filter is present and one fixed item otherwise. -/
def fallbackDemoSearch : SearchFn := fun _ _ f =>
  match f with
  | some fl => if fl.jobLevel.isSome then ([], []) else ([default], ["demo doc"])
  | none => ([default], ["demo doc"])

/-- The filter dictionary of the C7 instantiation: a job-level filter plus
a duration ceiling. -/
def fallbackDemoFilters : Filters :=
  { jobLevel := some "Entry_Level", maxDuration := some 60
    remoteSupport := none, adaptiveSupport := none }

/-- Witness for C7: the job-level filter empties the first search and the
retry keeps the duration ceiling while dropping only the job level. -/
theorem seniority_fallback_witness :
    strTruthy fallbackDemoFilters.jobLevel = true ∧
    (fallbackDemoSearch [] 50 (some fallbackDemoFilters)).1 = [] ∧
    semanticSearchWithFallback fallbackDemoSearch [] 50 fallbackDemoFilters =
      fallbackDemoSearch [] 50
        (if Filters.isEmptyDict { fallbackDemoFilters with jobLevel := none } then none
          else some { fallbackDemoFilters with jobLevel := none }) := by
  refine ⟨by decide, by decide, ?_⟩
  exact (seniority_fallback fallbackDemoSearch [] 50 fallbackDemoFilters).1
    (by decide) (by decide)

/-- One formatted recommendation record (lines 525-533). -/
structure OutputItem where
  url : Option String
  name : Option String
  adaptiveSupport : String
  description : String
  duration : Int
  remoteSupport : String
  testType : List String
deriving DecidableEq, Inhabited

/-- The static URL redirect table loaded from `url_mapping.json`, mapping
old URL to new URL. -/
abbrev UrlMapping := List (String × String)

/-- Lines 520-534: format one surviving candidate, remapping its URL
through the redirect table when an entry exists and passing it through
unchanged otherwise. -/
def formatResult (mapping : UrlMapping) (meta : ItemMeta) : OutputItem :=
  { url := match meta.url with
      | none => none
      | some src => some ((mapping.lookup src).getD src)
    name := meta.name
    adaptiveSupport := meta.adaptiveSupport.getD "No"
    description := meta.description.getD ""
    duration := meta.duration.getD 0
    remoteSupport := meta.remoteSupport.getD "No"
    testType := [meta.testType.getD "General"] }

/-- Lines 497-536, reranker path: threshold filter, truncation to
`n_results` and output formatting. -/
def resultSelector (thr : ℚ) (n : Nat) (mapping : UrlMapping)
    (ranked : List RankedCandidate) : List OutputItem :=
  (selectTop thr n ranked).map (fun x => formatResult mapping x.meta)

/-- C8: the selector keeps exactly the candidates at or above the
threshold, emits at most `n_results` records, formed from the first `n`
survivors in rank order; a URL with a redirect entry is remapped and any
other URL passes through unchanged; when no candidate clears the threshold
the output is empty rather than substituted. -/
theorem resultSelector_contract (thr : ℚ) (n : Nat) (mapping : UrlMapping)
    (ranked : List RankedCandidate) :
    resultSelector thr n mapping ranked =
      ((ranked.filter (fun x => decide (thr ≤ x.score))).take n).map
        (fun x => formatResult mapping x.meta) ∧
    (resultSelector thr n mapping ranked).length ≤ n ∧
    ((∀ x ∈ ranked, x.score < thr) → resultSelector thr n mapping ranked = []) ∧
    (∀ meta : ItemMeta, ∀ src : String, meta.url = some src →
      (formatResult mapping meta).url = some ((mapping.lookup src).getD src)) := by
  refine ⟨rfl, ?_, ?_, ?_⟩
  · rw [resultSelector, List.length_map, selectTop, List.length_take]
    omega
  · intro hall
    have : thresholdFilter thr ranked = [] := by
      rw [thresholdFilter, List.filter_eq_nil_iff]
      intro x hx
      simp only [decide_eq_true_eq]
      exact not_le.mpr (hall x hx)
    rw [resultSelector, selectTop, this]
    simp
  · intro meta src hsrc
    simp [formatResult, hsrc]

/-- A catalog item of the C8 instantiation whose URL has a redirect entry. -/
def redirectDemoMeta : ItemMeta :=
  { url := some "https://old/x", name := some "Verbal Reasoning"
    description := none, duration := some 30, testType := none
    remoteSupport := none, adaptiveSupport := none, jobLevel := none }

/-- Witness for C8: a pool entirely below the threshold yields the empty
output, and a mapped URL is remapped. -/
theorem resultSelector_contract_witness :
    (∀ x ∈ [demoCandidate 1], x.score < 5) ∧
    resultSelector 5 10 [("https://old/x", "https://new/x")] [demoCandidate 1] = [] ∧
    redirectDemoMeta.url = some "https://old/x" ∧
    (formatResult [("https://old/x", "https://new/x")] redirectDemoMeta).url =
      some "https://new/x" := by
  have h := resultSelector_contract 5 10 [("https://old/x", "https://new/x")]
    [demoCandidate 1]
  refine ⟨?_, ?_, rfl, ?_⟩
  · intro x hx
    rw [List.mem_singleton] at hx
    rw [hx]
    norm_num [demoCandidate]
  · exact h.2.2.1 (by
      intro x hx
      rw [List.mem_singleton] at hx
      rw [hx]
      norm_num [demoCandidate])
  · have := h.2.2.2 redirectDemoMeta "https://old/x" rfl
    rw [this]
    rfl

/-- The cross-encoder configuration together with this request's call
outcome: `noReranker` is `self.reranker is None` (production without a
reranker API URL, or a failed local model load); the three `remote` cases
are the possible outcomes of the remote API call; `localScores` carries
the local CrossEncoder predictions. -/
inductive RerankOutcome where
  | noReranker
  | remoteOk (scores : List ℚ)
  | remoteHttpError
  | remoteRaised
  | localScores (scores : List ℚ)
deriving DecidableEq

/-- Lines 410-438: the raw oracle scores per candidate document; any remote
failure (raised request, non-200 status, or an empty scores payload)
degrades to a zero score for every candidate. -/
def oracleScores (o : RerankOutcome) (numDocs : Nat) : List ℚ :=
  match o with
  | .noReranker => []
  | .remoteOk scores => if scores.length = 0 then List.replicate numDocs 0 else scores
  | .remoteHttpError => List.replicate numDocs 0
  | .remoteRaised => List.replicate numDocs 0
  | .localScores scores => scores

/-- Lines 404-516: the reranking-and-selection stage producing
`final_metas`.  With a configured reranker the candidates are boosted,
stable-sorted, thresholded and truncated; with `self.reranker` equal to
`None` (or an empty document list) the first `n_results` candidates are
taken in retrieval order, with no boosting, no threshold and no sort. -/
def rankAndSelect (o : RerankOutcome) (thr : ℚ) (n : Nat) (query : String)
    (c : Constraints) (cands : List (ItemMeta × String)) : List ItemMeta :=
  if o ≠ RerankOutcome.noReranker ∧ cands ≠ [] then
    (selectTop thr n
      (rerankCandidates query c cands (oracleScores o cands.length))).map
      (fun x => x.meta)
  else
    (cands.map (fun p => p.1)).take n

/-- A catalog item named unlike the query, first in retrieval order. -/
def c1MetaAlgebra : ItemMeta :=
  { url := some "https://cat/algebra", name := some "Algebra"
    description := none, duration := some 30, testType := none
    remoteSupport := none, adaptiveSupport := none, jobLevel := none }

/-- A catalog item named exactly like the query, second in retrieval order. -/
def c1MetaPython : ItemMeta :=
  { url := some "https://cat/python", name := some "Python"
    description := none, duration := some 30, testType := none
    remoteSupport := none, adaptiveSupport := none, jobLevel := none }

/-- The candidate pool of the C1 instantiation, in retrieval order. -/
def c1Cands : List (ItemMeta × String) :=
  [(c1MetaAlgebra, "algebra doc"), (c1MetaPython, "python doc")]

/-- Counterexample to C1 as stated: with the reranking oracle unavailable
because `self.reranker` is `None`, the pipeline does not apply the boost
terms, threshold and descending sort to zero oracle scores; it returns the
candidates in raw retrieval order, here the reverse of the boost-determined
order. -/
theorem reranker_unavailable_counterexample :
    rankAndSelect RerankOutcome.noReranker 0 10 "python" Constraints.empty c1Cands ≠
      (selectTop 0 10 (rerankCandidates "python" Constraints.empty c1Cands
        (List.replicate c1Cands.length 0))).map (fun x => x.meta) := by
  with_unfolding_all decide

/-- C1 amended: when a reranker is configured but this request's oracle
call fails (raised request, non-200 response, or empty scores payload),
every candidate keeps an oracle score of zero and the boosts, the score
threshold and the stable descending sort are still applied, so ranking
degrades deterministically to the boost terms; when no reranker is
configured at all, the boost/threshold/sort stage is skipped and the first
`n_results` candidates are returned in retrieval order (still
deterministic, but unboosted, unthresholded and unsorted). -/
theorem reranker_degradation (thr : ℚ) (n : Nat) (query : String)
    (c : Constraints) (cands : List (ItemMeta × String)) (h : cands ≠ []) :
    (∀ o ∈ [RerankOutcome.remoteRaised, RerankOutcome.remoteHttpError,
            RerankOutcome.remoteOk []],
      rankAndSelect o thr n query c cands =
        (selectTop thr n (rerankCandidates query c cands
          (List.replicate cands.length 0))).map (fun x => x.meta)) ∧
    rankAndSelect RerankOutcome.noReranker thr n query c cands =
      (cands.map (fun p => p.1)).take n := by
  constructor
  · intro o ho
    fin_cases ho
    · rw [rankAndSelect, if_pos ⟨by simp, h⟩]
      rfl
    · rw [rankAndSelect, if_pos ⟨by simp, h⟩]
      rfl
    · rw [rankAndSelect, if_pos ⟨by simp, h⟩]
      simp [oracleScores]
  · rw [rankAndSelect, if_neg (by simp)]

/-- Witness for the amended C1 on the concrete two-candidate pool. -/
theorem reranker_degradation_witness :
    c1Cands ≠ [] ∧
    rankAndSelect RerankOutcome.remoteRaised 0 10 "python" Constraints.empty c1Cands =
      (selectTop 0 10 (rerankCandidates "python" Constraints.empty c1Cands
        (List.replicate c1Cands.length 0))).map (fun x => x.meta) ∧
    rankAndSelect RerankOutcome.noReranker 0 10 "python" Constraints.empty c1Cands =
      (c1Cands.map (fun p => p.1)).take 10 := by
  have h := reranker_degradation 0 10 "python" Constraints.empty c1Cands (by decide)
  exact ⟨by decide, h.1 RerankOutcome.remoteRaised (by simp), h.2⟩

/-- Lines 360-389: the manual constraint post-filter applied to BM25
results; `true` means the candidate is skipped (`continue`).  The outer
`if constraints:` dict-truthiness test is dropped because every inner
check is already guarded by the truthiness of its own constraint, so an
empty dictionary skips nothing either way. -/
def bm25FilterSkips (c : Constraints) (meta : ItemMeta) : Bool :=
  if intTruthy c.maxDurationMinutes ∧
      meta.duration.getD 0 > c.maxDurationMinutes.getD 0 then
    true
  else if boolTruthy c.requiresRemote ∧ pyLower (meta.remoteSupport.getD "") ≠ "yes" then
    true
  else if strTruthy c.jobLevel ∧ c.jobLevel.getD "" ≠ "General" ∧
      ((c.jobLevel.getD "" = "Entry_Level" ∧ meta.jobLevel.getD "General" = "Manager_Senior") ∨
        (c.jobLevel.getD "" = "Manager_Senior" ∧ meta.jobLevel.getD "General" = "Entry_Level")) then
    true
  else if boolTruthy c.requiresAdaptive ∧ pyLower (meta.adaptiveSupport.getD "") ≠ "yes" then
    true
  else false

/-- The vector database backend: the search oracle plus the outcome of
`get_all()` used to build the BM25 snapshot. -/
structure VectorDb where
  search : SearchFn
  getAll : Except Unit (List ItemMeta × List String)

/-- `_ensure_bm25_initialized` (lines 111-133): on success the snapshot
from `vector_db.get_all()`; on any failure (including the BM25 index
construction raising on an empty corpus) no index and empty lists. -/
def bm25Snapshot (db : VectorDb) : Bool × List ItemMeta × List String :=
  match db.getAll with
  | Except.error _ => (false, [], [])
  | Except.ok (metas, docs) =>
    if docs.isEmpty then (false, [], []) else (true, metas, docs)

/-- Lines 253-300: the exact-name pass over the BM25 snapshot, listed as
the guarded insertions it attempts, in order. -/
def exactNameSightings (query : String) (bm25Metas : List ItemMeta)
    (bm25Docs : List String) : List Sighting :=
  (List.range bm25Metas.length).filterMap (fun idx =>
    let meta := bm25Metas.getD idx default
    let name := pyLower (meta.name.getD "")
    if name = "" ∨ strTruthy meta.url = false then none
    else if exactNameIsMatch (pyLower query) name then
      some { url := meta.url, meta := meta, doc := bm25Docs.getD idx "" }
    else none)

/-- The per-request state of the recommender: backend handles, this
request's oracle outcomes, and configuration. -/
structure RecommenderState where
  vectorDb : Option VectorDb
  geminiExtract : Option (Except Unit Constraints)
  geminiExpand : GeminiOutcome
  rerankOutcome : RerankOutcome
  urlMapping : UrlMapping
  scoreThreshold : ℚ
  retrievalK : Nat
  encode : String → List ℚ
  bm25Top : String → Nat → List Nat

/-- `extract_metadata_constraints` (lines 135-171) with the oracle call and
its JSON parse abstracted into one outcome: a missing model or any failure
yields the empty constraints dictionary. -/
def extractConstraints : Option (Except Unit Constraints) → Constraints
  | none => Constraints.empty
  | some (Except.error _) => Constraints.empty
  | some (Except.ok c) => c

/-- Lines 303-393: the sightings produced by one expanded query, semantic
channel (with the job-level fallback) followed by the filtered BM25
channel.  The library internals of BM25 scoring and `argsort` are
abstracted as the oracle `bm25Top`, giving candidate indices in descending
score order for a query. -/
def perQuerySightings (st : RecommenderState) (db : VectorDb) (c : Constraints)
    (bm25Ok : Bool) (bm25Metas : List ItemMeta) (bm25Docs : List String)
    (searchQuery : String) : List Sighting :=
  let sq := if searchQuery.length > 1000 then String.mk (searchQuery.toList.take 1000)
    else searchQuery
  let emb := st.encode sq
  let res := semanticSearchWithFallback db.search emb st.retrievalK (buildFilters c)
  let semSightings := (res.1.zip res.2).map (fun p =>
    { url := p.1.url, meta := p.1, doc := p.2 : Sighting })
  let bm25Sightings :=
    if bm25Ok then
      (st.bm25Top (pyLower sq) st.retrievalK).filterMap (fun i =>
        if i < bm25Metas.length then
          let meta := bm25Metas.getD i default
          if bm25FilterSkips c meta then none
          else some { url := meta.url, meta := meta, doc := bm25Docs.getD i "" : Sighting }
        else none)
    else []
  semSightings ++ bm25Sightings

/-- `RAGRecommender.recommend` (lines 220-542): the full pipeline.  Every
fallible step is a total function of its oracle outcome, so the function
always returns a list, mirroring the whole-body `try/except` that converts
any escaping exception into `[]`. -/
def recommend (st : RecommenderState) (query : String) (nResults : Nat) :
    List OutputItem :=
  match st.vectorDb with
  | none => []
  | some db =>
    let c := extractConstraints st.geminiExtract
    let searchQueries := multiExpandQuery st.geminiExpand query
    let snap := bm25Snapshot db
    let nameSightings := exactNameSightings query snap.2.1 snap.2.2
    let querySightings := (searchQueries.map
      (perQuerySightings st db c snap.1 snap.2.1 snap.2.2)).flatten
    let pool := aggregate (nameSightings ++ querySightings)
    if pool.isEmpty then []
    else
      (rankAndSelect st.rerankOutcome st.scoreThreshold nResults query c
        (pool.map (fun e => (e.2.1, e.2.2)))).map (formatResult st.urlMapping)

/-- C9: in the degraded state where the vector store failed to initialize,
`recommend` deterministically returns the empty list for every query and
every requested count; being a total function into lists, it embeds the
whole-body exception barrier of the Python method, which never lets an
exception reach the caller. -/
theorem recommend_degraded_empty (st : RecommenderState) (q : String) (n : Nat)
    (h : st.vectorDb = none) : recommend st q n = [] := by
  simp [recommend, h]

/-- A concrete state whose vector store failed to initialize at startup. -/
def degradedState : RecommenderState :=
  { vectorDb := none, geminiExtract := none, geminiExpand := none
    rerankOutcome := RerankOutcome.noReranker, urlMapping := []
    scoreThreshold := -2, retrievalK := 50
    encode := fun _ => [], bm25Top := fun _ _ => [] }

/-- Witness for C9 at a concrete degraded state and query. -/
theorem recommend_degraded_empty_witness :
    degradedState.vectorDb = none ∧ recommend degradedState "java developer" 10 = [] :=
  ⟨rfl, recommend_degraded_empty degradedState "java developer" 10 rfl⟩

end RagRec
